import Mathlib

/-!
# Account Ledger Service: shallow embedding and verification

Shallow embedding of the ledger logic of `src/backend/app.py` (a small
banking backend: registration, login, deposit, withdraw, transaction
listing over a document store), together with proofs of the documented
contracts.

Modelling conventions:
* Monetary amounts are `ℚ` (the source uses Python floats; the contracts
  are stated over exact arithmetic).
* The document store is a `List Account`; `find_one`/`update_one` act on
  the first document whose `_id` matches, mirroring the store primitives.
* The session is `Option Nat` (`some uid` iff `'user_id' in session`).
* `float(..)` parsing and the password hash/verify are external
  primitives; operations are parametric over them.
* `datetime.datetime.now(datetime.timezone.utc)` is modelled by passing
  the current UTC instant `now : DateTime` as an argument.
* A handler's observable outcome (redirect target, flash messages, JSON
  body/status) is an `HttpResponse`; handlers that may write return the
  resulting store alongside it.
-/

/-- A UTC timestamp at second granularity, as produced by
`datetime.datetime.now(datetime.timezone.utc)`. -/
structure DateTime where
  year : Nat
  month : Nat
  day : Nat
  hour : Nat
  minute : Nat
  second : Nat
deriving DecidableEq

/-- Transaction kind: the `'type'` field is either `'deposit'` or
`'withdrawal'`. -/
inductive TxKind where
  | deposit
  | withdrawal
deriving DecidableEq

/-- One embedded transaction record
`{'type': .., 'amount': .., 'date': ..}` (app.py lines 90 and 121). -/
structure Transaction where
  type : TxKind
  amount : ℚ
  date : DateTime
deriving DecidableEq

/-- One account document
`{_id, first_name, last_name, email, password_hash, balance, transactions}`
(app.py lines 38-45). -/
structure Account where
  id : Nat
  first_name : String
  last_name : String
  email : String
  password_hash : String
  balance : ℚ
  transactions : List Transaction
deriving DecidableEq

/-- The users collection. -/
abbrev Store := List Account

/-- Lookup `mongo.db.users.find_one({'_id': uid})`: first document with
the given id. -/
def findOne : Store → Nat → Option Account
  | [], _ => none
  | a :: rest, uid => if a.id = uid then some a else findOne rest uid

/-- Lookup `mongo.db.users.find_one({'email': em})`: first document with
the given email. -/
def findByEmail : Store → String → Option Account
  | [], _ => none
  | a :: rest, em => if a.email = em then some a else findByEmail rest em

/-- Write `update_one({'_id': uid}, {'$set': {'balance': nb}, '$push':
{'transactions': t}})`: set the balance of, and append a transaction to,
the first document with the given id (app.py lines 91-97 and 122-128). -/
def updateOne : Store → Nat → ℚ → Transaction → Store
  | [], _, _, _ => []
  | a :: rest, uid, nb, t =>
      if a.id = uid then
        { a with balance := nb, transactions := a.transactions ++ [t] } :: rest
      else
        a :: updateOne rest uid nb t

/-- A serialized transaction as produced by `serialize_tx`
(app.py lines 134-139): kind string, amount, ISO-8601 date string. -/
structure SerTx where
  type : String
  amount : ℚ
  date : String
deriving DecidableEq

/-- The string stored in the `'type'` field. -/
def kindString : TxKind → String
  | TxKind.deposit => "deposit"
  | TxKind.withdrawal => "withdrawal"

/-- Zero-pad a number to two digits, as `isoformat` does for month, day,
hour, minute, second. -/
def pad2 (n : Nat) : String :=
  if n < 10 then "0" ++ toString n else toString n

/-- Zero-pad a number to four digits, as `isoformat` does for the year. -/
def pad4 (n : Nat) : String :=
  if n < 10 then "000" ++ toString n
  else if n < 100 then "00" ++ toString n
  else if n < 1000 then "0" ++ toString n
  else toString n

/-- Rendering `d.isoformat()` of a timezone-aware UTC datetime. -/
def isoformat (d : DateTime) : String :=
  pad4 d.year ++ "-" ++ pad2 d.month ++ "-" ++ pad2 d.day ++ "T" ++
    pad2 d.hour ++ ":" ++ pad2 d.minute ++ ":" ++ pad2 d.second ++ "+00:00"

/-- Serializer `serialize_tx` (app.py lines 134-139). -/
def serialize_tx (t : Transaction) : SerTx :=
  { type := kindString t.type, amount := t.amount, date := isoformat t.date }

/-- The English month name, as `strftime('%B')` yields for months 1-12. -/
def monthName : Nat → String
  | 1 => "January"
  | 2 => "February"
  | 3 => "March"
  | 4 => "April"
  | 5 => "May"
  | 6 => "June"
  | 7 => "July"
  | 8 => "August"
  | 9 => "September"
  | 10 => "October"
  | 11 => "November"
  | 12 => "December"
  | _ => ""

/-- Group key `t['date'].strftime('%B %Y')`: the "Month Year" label
(app.py line 153). -/
def monthKey (d : DateTime) : String :=
  monthName d.month ++ " " ++ toString d.year

/-- Dict update `grouped.setdefault(month, []).append(v)` over an
insertion-ordered dict represented as an association list: append `v` to the entry for `k`
if present (dicts keep one entry per key), otherwise add a new entry
`(k, [v])` at the end (dict insertion order). -/
def addToGroup : List (String × List SerTx) → String → SerTx → List (String × List SerTx)
  | [], k, v => [(k, [v])]
  | (k', l) :: rest, k, v =>
      if k' = k then (k', l ++ [v]) :: rest
      else (k', l) :: addToGroup rest k v

/-- The grouping loop of `get_transactions` (app.py lines 151-159):
fold the stored transaction sequence into month groups, then read the
groups back in dict (= first insertion) order. -/
def groupByMonth (txs : List Transaction) : List (String × List SerTx) :=
  txs.foldl (fun g t => addToGroup g (monthKey t.date) (serialize_tx t)) []

/-- An observable HTTP outcome: redirect with flash messages, JSON error
with status, JSON month-group payload, rendered page, or an unhandled
server error (uncaught exception in the handler). -/
inductive HttpResponse where
  | redirect (target : String) (flashes : List (String × String))
  | jsonError (status : Nat) (errorMsg : String)
  | jsonOk (groups : List (String × List SerTx))
  | page (name : String)
  | serverError
deriving DecidableEq

/-- Form fields from `request.form.get(..)` are `None` or a string; a
field is falsy when absent or empty. -/
def blank : Option String → Bool
  | none => true
  | some s => s = ""

/-- POST `/api/register` (app.py lines 23-49): validate the four fields,
reject a duplicate email, otherwise insert a fresh account with
`balance = 0` and empty `transactions`. `hashFn` is the external
`generate_password_hash`; `newId` the id the store assigns. -/
def register (hashFn : String → String) (newId : Nat)
    (fn ln em pw : Option String) (store : Store) : HttpResponse × Store :=
  if blank fn || blank ln || blank em || blank pw then
    (HttpResponse.redirect "register" [("Please fill all fields", "error")], store)
  else
    match findByEmail store (em.getD "") with
    | some _ =>
        (HttpResponse.redirect "register" [("Email already exists", "error")], store)
    | none =>
        (HttpResponse.redirect "login"
            [("Registration successful. Please log in.", "success")],
          store ++ [{ id := newId
                      first_name := fn.getD ""
                      last_name := ln.getD ""
                      email := em.getD ""
                      password_hash := hashFn (pw.getD "")
                      balance := 0
                      transactions := [] }])

/-- POST `/api/login` (app.py lines 51-62): look the account up by
email; on hash-verify success bind the session to its id, otherwise
flash one undifferentiated error. `checkHash` is the external
`check_password_hash`. Returns the response and the session after the
request. -/
def login (checkHash : String → String → Bool) (em pw : String)
    (sess : Option Nat) (store : Store) : HttpResponse × Option Nat :=
  match findByEmail store em with
  | some u =>
      if checkHash u.password_hash pw then
        (HttpResponse.redirect "dashboard" [], some u.id)
      else
        (HttpResponse.redirect "login" [("Invalid email or password", "error")], sess)
  | none =>
      (HttpResponse.redirect "login" [("Invalid email or password", "error")], sess)

/-- GET `/api/dashboard` (app.py lines 64-69): session-guarded page
render; performs no store mutation. -/
def dashboard (sess : Option Nat) (store : Store) : HttpResponse :=
  match sess with
  | none => HttpResponse.redirect "login" []
  | some uid =>
      match findOne store uid with
      | _ => HttpResponse.page "dashboard"

/-- POST `/api/deposit` (app.py lines 71-100): session guard, parse the
amount (`parse` is the external `float(..)`, `none` when it raises),
reject non-positive amounts, flash an informational message above 10000
without blocking, then read-modify-write balance and transaction log. -/
def deposit (parse : String → Option ℚ) (sess : Option Nat)
    (amountInput : Option String) (now : DateTime) (store : Store) :
    HttpResponse × Store :=
  match sess with
  | none => (HttpResponse.redirect "login" [], store)
  | some uid =>
      match amountInput.bind parse with
      | none =>
          (HttpResponse.redirect "dashboard" [("Invalid amount", "error")], store)
      | some amount =>
          if amount ≤ 0 then
            (HttpResponse.redirect "dashboard" [("Amount must be positive", "error")], store)
          else
            match findOne store uid with
            | none => (HttpResponse.serverError, store)
            | some user =>
                (HttpResponse.redirect "dashboard"
                    ((if 10000 < amount then
                        [("Amount above 10,000 requires OTP verification (skipped)", "info")]
                      else []) ++ [("Deposit successful", "success")]),
                  updateOne store uid (user.balance + amount)
                    { type := TxKind.deposit, amount := amount, date := now })

/-- POST `/api/withdraw` (app.py lines 102-131): like `deposit`, with an
insufficient-funds pre-check against the balance read at the start. -/
def withdraw (parse : String → Option ℚ) (sess : Option Nat)
    (amountInput : Option String) (now : DateTime) (store : Store) :
    HttpResponse × Store :=
  match sess with
  | none => (HttpResponse.redirect "login" [], store)
  | some uid =>
      match amountInput.bind parse with
      | none =>
          (HttpResponse.redirect "dashboard" [("Invalid amount", "error")], store)
      | some amount =>
          if amount ≤ 0 then
            (HttpResponse.redirect "dashboard" [("Amount must be positive", "error")], store)
          else
            match findOne store uid with
            | none => (HttpResponse.serverError, store)
            | some user =>
                if user.balance < amount then
                  (HttpResponse.redirect "dashboard" [("Insufficient funds", "error")], store)
                else
                  (HttpResponse.redirect "dashboard" [("Withdrawal successful", "success")],
                    updateOne store uid (user.balance - amount)
                      { type := TxKind.withdrawal, amount := amount, date := now })

/-- GET `/api/transactions` (app.py lines 141-160): 401 JSON error
without a session, otherwise the month-grouped serialized transaction
sequence of the session's account. Performs no store mutation. -/
def get_transactions (sess : Option Nat) (store : Store) : HttpResponse :=
  match sess with
  | none => HttpResponse.jsonError 401 "Not logged in"
  | some uid =>
      match findOne store uid with
      | none => HttpResponse.serverError
      | some user => HttpResponse.jsonOk (groupByMonth user.transactions)

/-! ## Helper lemmas about the store primitives -/

/-- An account found by id is in the store. -/
theorem findOne_mem {store : Store} {uid : Nat} {u : Account}
    (h : findOne store uid = some u) : u ∈ store := by
  induction store with
  | nil => simp [findOne] at h
  | cons a rest ih =>
    by_cases hid : a.id = uid
    · simp [findOne, hid] at h
      simp [h]
    · simp [findOne, hid] at h
      exact List.mem_cons_of_mem _ (ih h)

/-- Reading back the account just written: `update_one` on the first
document matching `uid` is observed by the next `find_one` as the same
record with the new balance and exactly the one appended transaction. -/
theorem findOne_updateOne {store : Store} {uid : Nat} {u : Account}
    (nb : ℚ) (t : Transaction) (h : findOne store uid = some u) :
    findOne (updateOne store uid nb t) uid =
      some { u with balance := nb, transactions := u.transactions ++ [t] } := by
  induction store with
  | nil => simp [findOne] at h
  | cons a rest ih =>
    by_cases hid : a.id = uid
    · simp [findOne, hid] at h
      subst h
      simp [updateOne, findOne, hid]
    · simp [findOne, hid] at h
      simp [updateOne, findOne, hid, ih h]

/-! ## Deposit and withdraw contracts (C1-C4) -/

/-- C1: for every positive amount `a` accepted by parsing (including
`a > 10000`, where the OTP branch only adds an informational flash and
blocks nothing), depositing `a` into the authenticated account with
balance `b` yields balance `b + a` and appends exactly one deposit
transaction with amount `a` and the operation's UTC timestamp. -/
theorem deposit_adds_amount_and_appends_one
    (parse : String → Option ℚ) (uid : Nat) (s : String) (a : ℚ) (now : DateTime)
    (store : Store) (u : Account)
    (hparse : parse s = some a) (hpos : 0 < a) (hfind : findOne store uid = some u) :
    (deposit parse (some uid) (some s) now store).1 =
      HttpResponse.redirect "dashboard"
        ((if 10000 < a then
            [("Amount above 10,000 requires OTP verification (skipped)", "info")]
          else []) ++ [("Deposit successful", "success")]) ∧
    findOne (deposit parse (some uid) (some s) now store).2 uid =
      some { u with balance := u.balance + a,
                    transactions := u.transactions ++
                      [{ type := TxKind.deposit, amount := a, date := now }] } := by
  have hbind : (some s).bind parse = some a := hparse
  constructor
  · simp [deposit, hbind, not_le.mpr hpos, hfind]
  · simp only [deposit, hbind, if_neg (not_le.mpr hpos), hfind]
    exact findOne_updateOne _ _ hfind

/-- C2: for every positive parsed amount `a ≤ b`, withdrawing `a` from
the authenticated account with balance `b` yields balance `b - a` and
appends exactly one withdrawal transaction with amount `a` and the
operation's UTC timestamp. -/
theorem withdraw_subtracts_amount_and_appends_one
    (parse : String → Option ℚ) (uid : Nat) (s : String) (a : ℚ) (now : DateTime)
    (store : Store) (u : Account)
    (hparse : parse s = some a) (hpos : 0 < a) (hfind : findOne store uid = some u)
    (hle : a ≤ u.balance) :
    (withdraw parse (some uid) (some s) now store).1 =
      HttpResponse.redirect "dashboard" [("Withdrawal successful", "success")] ∧
    findOne (withdraw parse (some uid) (some s) now store).2 uid =
      some { u with balance := u.balance - a,
                    transactions := u.transactions ++
                      [{ type := TxKind.withdrawal, amount := a, date := now }] } := by
  have hbind : (some s).bind parse = some a := hparse
  constructor
  · simp [withdraw, hbind, not_le.mpr hpos, hfind, not_lt.mpr hle]
  · simp only [withdraw, hbind, if_neg (not_le.mpr hpos), hfind,
      if_neg (not_lt.mpr (by exact hle))]
    exact findOne_updateOne _ _ hfind

/-- C3: with a session, a parsed positive amount and an existing
account, the withdrawal fails with the insufficient-funds error — with
balance and transaction sequence unchanged — exactly when the amount
exceeds the balance read at the start of the operation. -/
theorem withdraw_insufficient_iff
    (parse : String → Option ℚ) (uid : Nat) (s : String) (a : ℚ) (now : DateTime)
    (store : Store) (u : Account)
    (hparse : parse s = some a) (hpos : 0 < a) (hfind : findOne store uid = some u) :
    withdraw parse (some uid) (some s) now store =
        (HttpResponse.redirect "dashboard" [("Insufficient funds", "error")], store)
      ↔ u.balance < a := by
  have hbind : (some s).bind parse = some a := hparse
  by_cases hlt : u.balance < a
  · simp [withdraw, hbind, not_le.mpr hpos, hfind, hlt]
  · simp [withdraw, hbind, not_le.mpr hpos, hfind, hlt]

/-- A response reporting a validation failure of the amount input:
flash `Invalid amount` (unparseable) or `Amount must be positive`
(non-positive), redirecting back to the dashboard. -/
def isValidationError (r : HttpResponse) : Prop :=
  r = HttpResponse.redirect "dashboard" [("Invalid amount", "error")] ∨
  r = HttpResponse.redirect "dashboard" [("Amount must be positive", "error")]

/-- C4: whenever the amount input fails to parse to a positive number
(missing field, unparseable string, or a value `≤ 0`), both deposit and
withdraw report a validation error and leave the store — hence the
account's balance and transaction sequence — unchanged. -/
theorem nonpositive_or_unparseable_rejected
    (parse : String → Option ℚ) (uid : Nat) (amountInput : Option String)
    (now : DateTime) (store : Store)
    (h : ∀ a : ℚ, amountInput.bind parse = some a → a ≤ 0) :
    isValidationError (deposit parse (some uid) amountInput now store).1 ∧
    (deposit parse (some uid) amountInput now store).2 = store ∧
    isValidationError (withdraw parse (some uid) amountInput now store).1 ∧
    (withdraw parse (some uid) amountInput now store).2 = store := by
  cases hbind : amountInput.bind parse with
  | none =>
      refine ⟨Or.inl ?_, ?_, Or.inl ?_, ?_⟩ <;> simp [deposit, withdraw, hbind]
  | some a =>
      have ha : a ≤ 0 := h a hbind
      refine ⟨Or.inr ?_, ?_, Or.inr ?_, ?_⟩ <;> simp [deposit, withdraw, hbind, ha]

/-! ## Session guard (C8) and authentication (C9) -/

/-- C8: without an established session, deposit, withdraw and dashboard
redirect to login and the transactions endpoint answers the JSON error
`Not logged in` with status 401; the store is returned untouched, so no
balance or transaction-sequence mutation is performed (dashboard and
get_transactions take the store read-only and cannot mutate it). -/
theorem no_session_rejected_before_store_access
    (parse : String → Option ℚ) (amountInput : Option String) (now : DateTime)
    (store : Store) :
    deposit parse none amountInput now store = (HttpResponse.redirect "login" [], store) ∧
    withdraw parse none amountInput now store = (HttpResponse.redirect "login" [], store) ∧
    dashboard none store = HttpResponse.redirect "login" [] ∧
    get_transactions none store = HttpResponse.jsonError 401 "Not logged in" :=
  ⟨rfl, rfl, rfl, rfl⟩

/-- A failed login attempt: either no account matches the email, or the
hash-verify of the supplied password against the stored credential hash
fails. -/
def loginFails (checkHash : String → String → Bool) (store : Store)
    (em pw : String) : Prop :=
  findByEmail store em = none ∨
  ∃ u, findByEmail store em = some u ∧ checkHash u.password_hash pw = false

/-- Both login failure modes hit the single undifferentiated
flash-and-redirect line, leaving the session unchanged. -/
theorem login_fail_response (checkHash : String → String → Bool) (store : Store)
    (em pw : String) (sess : Option Nat) (h : loginFails checkHash store em pw) :
    login checkHash em pw sess store =
      (HttpResponse.redirect "login" [("Invalid email or password", "error")], sess) := by
  rcases h with h | ⟨u, hu, hc⟩
  · simp [login, h]
  · simp [login, hu, hc]

/-- C9: authentication fails both when no account matches the email and
when the password hash-verify fails, and the two failure cases produce
the same observable outcome (identical flash message, redirect target
and session), so an observer cannot tell which field was wrong. -/
theorem login_failures_indistinguishable
    (checkHash : String → String → Bool) (store : Store)
    (em1 pw1 em2 pw2 : String) (sess : Option Nat)
    (h1 : loginFails checkHash store em1 pw1)
    (h2 : loginFails checkHash store em2 pw2) :
    login checkHash em1 pw1 sess store =
      (HttpResponse.redirect "login" [("Invalid email or password", "error")], sess) ∧
    login checkHash em1 pw1 sess store = login checkHash em2 pw2 sess store := by
  refine ⟨login_fail_response checkHash store em1 pw1 sess h1, ?_⟩
  rw [login_fail_response checkHash store em1 pw1 sess h1,
    login_fail_response checkHash store em2 pw2 sess h2]

/-! ## Frame property (C10) -/

/-- Pointwise frame relation between the store before and after a
balance operation by the session identity `uid?`: every document keeps
its position, its id, names, email and credential hash; documents whose
id is not the session's are untouched entirely. -/
def frameRespecting (uid? : Option Nat) : Store → Store → Prop :=
  List.Forall₂ (fun a a' =>
    a'.id = a.id ∧ a'.first_name = a.first_name ∧ a'.last_name = a.last_name ∧
    a'.email = a.email ∧ a'.password_hash = a.password_hash ∧
    (uid? ≠ some a.id → a' = a))

/-- A store trivially frames itself. -/
theorem frameRespecting_refl (uid? : Option Nat) (s : Store) :
    frameRespecting uid? s s :=
  List.forall₂_same.mpr fun _ _ => ⟨rfl, rfl, rfl, rfl, rfl, fun _ => rfl⟩

/-- `update_one` only rewrites balance and transactions of the first
document matching the session's id. -/
theorem frameRespecting_updateOne (uid : Nat) (nb : ℚ) (t : Transaction)
    (s : Store) : frameRespecting (some uid) s (updateOne s uid nb t) := by
  induction s with
  | nil => exact List.Forall₂.nil
  | cons a rest ih =>
    by_cases hid : a.id = uid
    · simp only [updateOne, if_pos hid]
      exact List.Forall₂.cons
        ⟨rfl, rfl, rfl, rfl, rfl, fun hne => absurd (congrArg some hid.symm) hne⟩
        (frameRespecting_refl _ rest)
    · simp only [updateOne, if_neg hid]
      exact List.Forall₂.cons ⟨rfl, rfl, rfl, rfl, rfl, fun _ => rfl⟩ ih

/-- C10: every deposit and withdraw request, on any outcome, modifies at
most the balance and transaction sequence of the session's account; id,
names, email and credential hash of every document, and every other
account wholesale, are unchanged. -/
theorem deposit_withdraw_frame
    (parse : String → Option ℚ) (sess : Option Nat) (amountInput : Option String)
    (now : DateTime) (store : Store) :
    frameRespecting sess store (deposit parse sess amountInput now store).2 ∧
    frameRespecting sess store (withdraw parse sess amountInput now store).2 := by
  constructor
  · rcases sess with _ | uid
    · exact frameRespecting_refl _ _
    · rcases hb : amountInput.bind parse with _ | a
      · simp only [deposit, hb]
        exact frameRespecting_refl _ _
      · simp only [deposit, hb]
        by_cases hle : a ≤ 0
        · simp only [if_pos hle]
          exact frameRespecting_refl _ _
        · simp only [if_neg hle]
          rcases hf : findOne store uid with _ | u
          · simp only [hf]
            exact frameRespecting_refl _ _
          · simp only [hf]
            exact frameRespecting_updateOne _ _ _ _
  · rcases sess with _ | uid
    · exact frameRespecting_refl _ _
    · rcases hb : amountInput.bind parse with _ | a
      · simp only [withdraw, hb]
        exact frameRespecting_refl _ _
      · simp only [withdraw, hb]
        by_cases hle : a ≤ 0
        · simp only [if_pos hle]
          exact frameRespecting_refl _ _
        · simp only [if_neg hle]
          rcases hf : findOne store uid with _ | u
          · simp only [hf]
            exact frameRespecting_refl _ _
          · simp only [hf]
            by_cases hlt : u.balance < a
            · simp only [if_pos hlt]
              exact frameRespecting_refl _ _
            · simp only [if_neg hlt]
              exact frameRespecting_updateOne _ _ _ _

/-! ## Ledger invariants (C5, C6) -/

/-- The signed contribution of a transaction to the balance. -/
def signed (t : Transaction) : ℚ :=
  match t.type with
  | TxKind.deposit => t.amount
  | TxKind.withdrawal => -t.amount

/-- Sum of deposit amounts minus sum of withdrawal amounts. -/
def txSum (txs : List Transaction) : ℚ :=
  (txs.map signed).sum

theorem txSum_append (txs : List Transaction) (t : Transaction) :
    txSum (txs ++ [t]) = txSum txs + signed t := by
  simp [txSum]

/-- Case analysis of a deposit's effect on the store: either the store
is untouched, or the request was an authenticated, positive, parsed
amount against an existing account and the store got the corresponding
`update_one`. -/
theorem deposit_store_cases
    (parse : String → Option ℚ) (sess : Option Nat) (amountInput : Option String)
    (now : DateTime) (store : Store) :
    (deposit parse sess amountInput now store).2 = store ∨
    ∃ uid u a, sess = some uid ∧ findOne store uid = some u ∧
      amountInput.bind parse = some a ∧ 0 < a ∧
      (deposit parse sess amountInput now store).2 =
        updateOne store uid (u.balance + a)
          { type := TxKind.deposit, amount := a, date := now } := by
  rcases sess with _ | uid
  · exact Or.inl rfl
  · rcases hb : amountInput.bind parse with _ | a
    · exact Or.inl (by simp [deposit, hb])
    · by_cases hle : a ≤ 0
      · exact Or.inl (by simp [deposit, hb, hle])
      · rcases hf : findOne store uid with _ | u
        · exact Or.inl (by simp [deposit, hb, hle, hf])
        · exact Or.inr ⟨uid, u, a, rfl, hf, rfl, not_le.mp hle,
            by simp [deposit, hb, hle, hf]⟩

/-- Case analysis of a withdrawal's effect on the store: either the
store is untouched, or the request was an authenticated, positive,
parsed amount not exceeding the balance of an existing account and the
store got the corresponding `update_one`. -/
theorem withdraw_store_cases
    (parse : String → Option ℚ) (sess : Option Nat) (amountInput : Option String)
    (now : DateTime) (store : Store) :
    (withdraw parse sess amountInput now store).2 = store ∨
    ∃ uid u a, sess = some uid ∧ findOne store uid = some u ∧
      amountInput.bind parse = some a ∧ 0 < a ∧ a ≤ u.balance ∧
      (withdraw parse sess amountInput now store).2 =
        updateOne store uid (u.balance - a)
          { type := TxKind.withdrawal, amount := a, date := now } := by
  rcases sess with _ | uid
  · exact Or.inl rfl
  · rcases hb : amountInput.bind parse with _ | a
    · exact Or.inl (by simp [withdraw, hb])
    · by_cases hle : a ≤ 0
      · exact Or.inl (by simp [withdraw, hb, hle])
      · rcases hf : findOne store uid with _ | u
        · exact Or.inl (by simp [withdraw, hb, hle, hf])
        · by_cases hlt : u.balance < a
          · exact Or.inl (by simp [withdraw, hb, hle, hf, hlt])
          · exact Or.inr ⟨uid, u, a, rfl, hf, rfl, not_le.mp hle, not_lt.mp hlt,
              by simp [withdraw, hb, hle, hf, hlt]⟩

/-- Every account in the store after a registration either was already
there or is the freshly inserted one with zero balance and no
transactions. -/
theorem register_mem (hashFn : String → String) (newId : Nat)
    (fn ln em pw : Option String) (store : Store) (a : Account)
    (ha : a ∈ (register hashFn newId fn ln em pw store).2) :
    a ∈ store ∨ (a.balance = 0 ∧ a.transactions = []) := by
  unfold register at ha
  split at ha
  · exact Or.inl ha
  · split at ha
    · exact Or.inl ha
    · simp only at ha
      rcases List.mem_append.mp ha with h | h
      · exact Or.inl h
      · rcases List.mem_singleton.mp h with rfl
        exact Or.inr ⟨rfl, rfl⟩

/-- `update_one` preserves the balance-equals-ledger-sum invariant when
the new balance is the found account's balance plus the signed amount of
the pushed transaction. -/
theorem updateOne_balanced (store : Store) (uid : Nat) (nb : ℚ) (t : Transaction)
    (u : Account) (hf : findOne store uid = some u) (hnb : nb = u.balance + signed t)
    (h : ∀ a ∈ store, a.balance = txSum a.transactions) :
    ∀ a ∈ updateOne store uid nb t, a.balance = txSum a.transactions := by
  induction store with
  | nil => simp [updateOne]
  | cons b rest ih =>
    intro a ha
    by_cases hid : b.id = uid
    · simp only [findOne, if_pos hid, Option.some.injEq] at hf
      subst hf
      simp only [updateOne, if_pos hid] at ha
      rcases List.mem_cons.mp ha with rfl | h'
      · have hb2 : b.balance = txSum b.transactions := h b (List.mem_cons_self _ _)
        simp [hnb, txSum_append, hb2]
      · exact h a (List.mem_cons_of_mem _ h')
    · simp only [findOne, if_neg hid] at hf
      simp only [updateOne, if_neg hid] at ha
      rcases List.mem_cons.mp ha with rfl | h'
      · exact h a (List.mem_cons_self _ _)
      · exact ih hf (fun x hx => h x (List.mem_cons_of_mem _ hx)) a h'

/-- `update_one` with a non-negative new balance preserves
non-negativity of every balance. -/
theorem updateOne_nonneg (store : Store) (uid : Nat) (nb : ℚ) (t : Transaction)
    (hnb : 0 ≤ nb) (h : ∀ a ∈ store, 0 ≤ a.balance) :
    ∀ a ∈ updateOne store uid nb t, 0 ≤ a.balance := by
  induction store with
  | nil => simp [updateOne]
  | cons b rest ih =>
    intro a ha
    by_cases hid : b.id = uid
    · simp only [updateOne, if_pos hid] at ha
      rcases List.mem_cons.mp ha with rfl | h'
      · exact hnb
      · exact h a (List.mem_cons_of_mem _ h')
    · simp only [updateOne, if_neg hid] at ha
      rcases List.mem_cons.mp ha with rfl | h'
      · exact h a (List.mem_cons_self _ _)
      · exact ih (fun x hx => h x (List.mem_cons_of_mem _ hx)) a h'

/-- The stores reachable from the empty collection by any sequence of
sequential registration, deposit and withdraw requests (arbitrary
sessions, inputs, timestamps, parse and hash functions; no concurrent
writers). -/
inductive Reachable : Store → Prop where
  | init : Reachable []
  | reg (hashFn : String → String) (newId : Nat) (fn ln em pw : Option String)
      {s : Store} : Reachable s → Reachable (register hashFn newId fn ln em pw s).2
  | dep (parse : String → Option ℚ) (sess : Option Nat) (amountInput : Option String)
      (now : DateTime) {s : Store} : Reachable s →
      Reachable (deposit parse sess amountInput now s).2
  | wdr (parse : String → Option ℚ) (sess : Option Nat) (amountInput : Option String)
      (now : DateTime) {s : Store} : Reachable s →
      Reachable (withdraw parse sess amountInput now s).2

/-- C5: in every reachable store — registration starts an account at
balance 0 with no transactions, and any sequence of sequential deposits
and withdrawals follows — each account's balance equals the sum of its
deposit amounts minus the sum of its withdrawal amounts. -/
theorem reachable_balance_eq_ledger (s : Store) (h : Reachable s) :
    ∀ a ∈ s, a.balance = txSum a.transactions := by
  induction h with
  | init => simp
  | reg hashFn newId fn ln em pw hr ih =>
      intro a ha
      rcases register_mem hashFn newId fn ln em pw _ a ha with h' | ⟨hb, ht⟩
      · exact ih a h'
      · rw [hb, ht]
        rfl
  | dep parse sess amountInput now hr ih =>
      rcases deposit_store_cases parse sess amountInput now _ with
        heq | ⟨uid, u, a, _, hf, _, _, heq⟩
      · rw [heq]
        exact ih
      · rw [heq]
        exact updateOne_balanced _ _ _ _ _ hf (by simp [signed]) ih
  | wdr parse sess amountInput now hr ih =>
      rcases withdraw_store_cases parse sess amountInput now _ with
        heq | ⟨uid, u, a, _, hf, _, _, _, heq⟩
      · rw [heq]
        exact ih
      · rw [heq]
        exact updateOne_balanced _ _ _ _ _ hf (by simp [signed, sub_eq_add_neg]) ih

/-- C6: in every reachable store, every account's balance is
non-negative; the only enforcement used is the insufficient-funds
pre-check at withdrawal time (deposits only add positive amounts to a
non-negative balance). -/
theorem reachable_balance_nonneg (s : Store) (h : Reachable s) :
    ∀ a ∈ s, 0 ≤ a.balance := by
  induction h with
  | init => simp
  | reg hashFn newId fn ln em pw hr ih =>
      intro a ha
      rcases register_mem hashFn newId fn ln em pw _ a ha with h' | ⟨hb, _⟩
      · exact ih a h'
      · rw [hb]
  | dep parse sess amountInput now hr ih =>
      rcases deposit_store_cases parse sess amountInput now _ with
        heq | ⟨uid, u, a, _, hf, _, hpos, heq⟩
      · rw [heq]
        exact ih
      · rw [heq]
        exact updateOne_nonneg _ _ _ _
          (add_nonneg (ih u (findOne_mem hf)) (le_of_lt hpos)) ih
  | wdr parse sess amountInput now hr ih =>
      rcases withdraw_store_cases parse sess amountInput now _ with
        heq | ⟨uid, u, a, _, hf, _, _, hle, heq⟩
      · rw [heq]
        exact ih
      · rw [heq]
        exact updateOne_nonneg _ _ _ _ (sub_nonneg.mpr hle) ih

/-! ## Transaction grouping (C7) -/

/-- Keys in order of first occurrence while scanning left to right. -/
def firstSeenKeys (ks : List String) : List String :=
  ks.foldl (fun acc k => if k ∈ acc then acc else acc ++ [k]) []

theorem firstSeen_foldl_mem (ks : List String) (acc : List String) (k : String) :
    (k ∈ ks.foldl (fun acc k' => if k' ∈ acc then acc else acc ++ [k']) acc) ↔
      k ∈ acc ∨ k ∈ ks := by
  induction ks generalizing acc with
  | nil => simp
  | cons k0 ks ih =>
    simp only [List.foldl_cons]
    by_cases h0 : k0 ∈ acc
    · rw [if_pos h0, ih]
      constructor
      · rintro (h | h)
        · exact Or.inl h
        · exact Or.inr (List.mem_cons_of_mem _ h)
      · rintro (h | h)
        · exact Or.inl h
        · rcases List.mem_cons.mp h with rfl | h
          · exact Or.inl h0
          · exact Or.inr h
    · rw [if_neg h0, ih]
      simp only [List.mem_append, List.mem_singleton, List.mem_cons]
      tauto

theorem firstSeen_foldl_nodup (ks : List String) (acc : List String)
    (h : acc.Nodup) :
    (ks.foldl (fun acc k' => if k' ∈ acc then acc else acc ++ [k']) acc).Nodup := by
  induction ks generalizing acc with
  | nil => exact h
  | cons k0 ks ih =>
    simp only [List.foldl_cons]
    by_cases h0 : k0 ∈ acc
    · rw [if_pos h0]
      exact ih acc h
    · rw [if_neg h0]
      exact ih (acc ++ [k0]) (by simp [List.nodup_append, h, h0])

theorem firstSeenKeys_mem (ks : List String) (k : String) :
    k ∈ firstSeenKeys ks ↔ k ∈ ks := by
  rw [firstSeenKeys, firstSeen_foldl_mem]
  simp

theorem firstSeenKeys_nodup (ks : List String) : (firstSeenKeys ks).Nodup :=
  firstSeen_foldl_nodup ks [] List.nodup_nil

theorem firstSeenKeys_append (ks : List String) (k : String) :
    firstSeenKeys (ks ++ [k]) =
      if k ∈ firstSeenKeys ks then firstSeenKeys ks else firstSeenKeys ks ++ [k] := by
  simp [firstSeenKeys, List.foldl_append]

/-- Modelled from the spec: the month keys of the account's transaction
sequence in first-seen order ("groups ordered by the first occurrence of
each month key while scanning the stored sequence in order"). -/
def monthKeys (txs : List Transaction) : List String :=
  firstSeenKeys (txs.map fun t => monthKey t.date)

/-- Modelled from the spec: for each month key in first-seen order, the
group of the serialized transactions carrying that key, in stored
order. -/
def groupedBySpec (txs : List Transaction) : List (String × List SerTx) :=
  (monthKeys txs).map fun k =>
    (k, (txs.filter fun t => monthKey t.date == k).map serialize_tx)

theorem addToGroup_map_mem (L : List String) (f : String → List SerTx)
    (k : String) (v : SerTx) (hnd : L.Nodup) (hk : k ∈ L) :
    addToGroup (L.map fun k' => (k', f k')) k v =
      L.map fun k' => (k', if k' = k then f k' ++ [v] else f k') := by
  induction L with
  | nil => cases hk
  | cons k0 L ih =>
    rcases List.nodup_cons.mp hnd with ⟨hk0, hnd'⟩
    by_cases h0 : k0 = k
    · subst h0
      simp only [List.map_cons, addToGroup, if_true]
      congr 1
      exact List.map_congr_left fun k' hk' => by
        rw [if_neg fun (he : k' = k0) => hk0 (he ▸ hk')]
    · have hkL : k ∈ L := by
        rcases List.mem_cons.mp hk with h | h
        · exact absurd h.symm h0
        · exact h
      simp only [List.map_cons, addToGroup, if_neg h0]
      rw [ih hnd' hkL]

theorem addToGroup_map_not_mem (L : List String) (f : String → List SerTx)
    (k : String) (v : SerTx) (hk : k ∉ L) :
    addToGroup (L.map fun k' => (k', f k')) k v =
      (L.map fun k' => (k', f k')) ++ [(k, [v])] := by
  induction L with
  | nil => rfl
  | cons k0 L ih =>
    have h0 : k0 ≠ k := fun he => hk (he ▸ List.mem_cons_self _ _)
    simp only [List.map_cons, addToGroup, if_neg h0, List.cons_append]
    rw [ih fun h => hk (List.mem_cons_of_mem _ h)]

set_option maxHeartbeats 1600000 in
/-- The dict-based grouping loop of `get_transactions` computes exactly
the spec's description: one group per month key in first-seen scan
order, each group holding the serialized transactions of that month in
stored order. -/
theorem groupByMonth_eq_spec (txs : List Transaction) :
    groupByMonth txs = groupedBySpec txs := by
  induction txs using List.reverseRecOn with
  | nil => rfl
  | append_singleton txs t ih =>
    have hL : groupByMonth (txs ++ [t]) =
        addToGroup (groupByMonth txs) (monthKey t.date) (serialize_tx t) := by
      simp [groupByMonth, List.foldl_append]
    have hkeys : monthKeys (txs ++ [t]) =
        if monthKey t.date ∈ monthKeys txs then monthKeys txs
        else monthKeys txs ++ [monthKey t.date] := by
      simp only [monthKeys, List.map_append, List.map_cons, List.map_nil]
      exact firstSeenKeys_append _ _
    have hfilter : ∀ k' : String,
        ((txs ++ [t]).filter fun t' => monthKey t'.date == k').map serialize_tx =
          ((txs.filter fun t' => monthKey t'.date == k').map serialize_tx) ++
            (if monthKey t.date = k' then [serialize_tx t] else []) := by
      intro k'
      by_cases hk' : monthKey t.date = k'
      · simp [List.filter_append, hk']
      · simp [List.filter_append, hk']
    rw [hL, ih]
    simp only [groupedBySpec]
    rw [hkeys]
    by_cases hmem : monthKey t.date ∈ monthKeys txs
    · rw [if_pos hmem]
      refine (addToGroup_map_mem (monthKeys txs)
        (fun k => (txs.filter fun t' => monthKey t'.date == k).map serialize_tx)
        (monthKey t.date) (serialize_tx t) (firstSeenKeys_nodup _) hmem).trans ?_
      apply List.map_congr_left
      intro k' hk'
      dsimp only
      rw [hfilter k']
      by_cases he : k' = monthKey t.date
      · subst he
        simp
      · rw [if_neg he, if_neg (fun h : monthKey t.date = k' => he h.symm),
          List.append_nil]
    · rw [if_neg hmem]
      refine (addToGroup_map_not_mem (monthKeys txs)
        (fun k => (txs.filter fun t' => monthKey t'.date == k).map serialize_tx)
        (monthKey t.date) (serialize_tx t) hmem).trans ?_
      simp only [List.map_append, List.map_cons, List.map_nil]
      congr 1
      · apply List.map_congr_left
        intro k' hk'
        dsimp only
        rw [hfilter k',
          if_neg (fun h : monthKey t.date = k' => hmem (by rw [h]; exact hk')),
          List.append_nil]
      · have hnotin : monthKey t.date ∉ txs.map fun t' => monthKey t'.date :=
          fun h => hmem ((firstSeenKeys_mem _ _).mpr h)
        have hfe : (txs.filter fun t' => monthKey t'.date == monthKey t.date) = [] := by
          rw [List.filter_eq_nil_iff]
          intro t' ht' hbeq
          exact hnotin (by
            rw [← eq_of_beq hbeq]
            exact List.mem_map_of_mem _ ht')
        simp [hfilter, hfe]

/-- C7: for every account, the transactions endpoint returns the
stored transaction sequence grouped by the "Month Year" key of the UTC
timestamps; the grouping equals the spec-side description (groups in
first-seen order of the month key over the stored scan, each group the
serialized transactions of that month in stored order), the month keys
are pairwise distinct (so each transaction lands in exactly the group
of its own key, which is always present), and an account with no
transactions yields the empty sequence. -/
theorem get_transactions_month_grouping
    (uid : Nat) (store : Store) (u : Account)
    (hfind : findOne store uid = some u) :
    get_transactions (some uid) store =
      HttpResponse.jsonOk (groupByMonth u.transactions) ∧
    groupByMonth u.transactions = groupedBySpec u.transactions ∧
    (monthKeys u.transactions).Nodup ∧
    (∀ t ∈ u.transactions, monthKey t.date ∈ monthKeys u.transactions) ∧
    (u.transactions = [] → groupByMonth u.transactions = []) := by
  refine ⟨by simp [get_transactions, hfind], groupByMonth_eq_spec _,
    firstSeenKeys_nodup _, ?_, ?_⟩
  · intro t ht
    exact (firstSeenKeys_mem _ _).mpr (List.mem_map_of_mem _ ht)
  · intro h
    rw [h]
    rfl

/-! ## Concrete witnesses -/

/-- A concrete instance of the external amount parser that reads every
string as the fixed value `q` (the contracts hold for every parser, so a
constant one suffices to instantiate them). -/
def parseConst (q : ℚ) : String → Option ℚ := fun _ => some q

/-- A concrete instance of the external password hash. -/
def hashF : String → String := fun s => s ++ "#h"

def d1 : DateTime := ⟨2024, 1, 15, 10, 30, 0⟩

def d2 : DateTime := ⟨2024, 2, 3, 9, 0, 0⟩

def tx1 : Transaction := ⟨TxKind.deposit, 100, d1⟩

def tx2 : Transaction := ⟨TxKind.withdrawal, 30, d2⟩

def acctA : Account :=
  ⟨1, "Alice", "Smith", "alice@example.com", "hashA", 70, [tx1, tx2]⟩

theorem deposit_adds_amount_and_appends_one_witness :
    parseConst 5 "5" = some 5 ∧ (0 : ℚ) < 5 ∧ findOne [acctA] 1 = some acctA ∧
    ((deposit (parseConst 5) (some 1) (some "5") d1 [acctA]).1 =
        HttpResponse.redirect "dashboard"
          ((if (10000 : ℚ) < 5 then
              [("Amount above 10,000 requires OTP verification (skipped)", "info")]
            else []) ++ [("Deposit successful", "success")]) ∧
      findOne (deposit (parseConst 5) (some 1) (some "5") d1 [acctA]).2 1 =
        some { acctA with balance := acctA.balance + 5,
                          transactions := acctA.transactions ++
                            [{ type := TxKind.deposit, amount := 5, date := d1 }] }) :=
  ⟨rfl, by norm_num, by decide,
    deposit_adds_amount_and_appends_one (parseConst 5) 1 "5" 5 d1 [acctA] acctA
      rfl (by norm_num) (by decide)⟩

theorem withdraw_subtracts_amount_and_appends_one_witness :
    parseConst 50 "50" = some 50 ∧ (0 : ℚ) < 50 ∧
    findOne [acctA] 1 = some acctA ∧ (50 : ℚ) ≤ acctA.balance ∧
    ((withdraw (parseConst 50) (some 1) (some "50") d2 [acctA]).1 =
        HttpResponse.redirect "dashboard" [("Withdrawal successful", "success")] ∧
      findOne (withdraw (parseConst 50) (some 1) (some "50") d2 [acctA]).2 1 =
        some { acctA with balance := acctA.balance - 50,
                          transactions := acctA.transactions ++
                            [{ type := TxKind.withdrawal, amount := 50, date := d2 }] }) :=
  ⟨rfl, by norm_num, by decide, by decide,
    withdraw_subtracts_amount_and_appends_one (parseConst 50) 1 "50" 50 d2 [acctA] acctA
      rfl (by norm_num) (by decide) (by decide)⟩

theorem withdraw_insufficient_iff_witness :
    parseConst 100 "100" = some 100 ∧ (0 : ℚ) < 100 ∧
    findOne [acctA] 1 = some acctA ∧
    (withdraw (parseConst 100) (some 1) (some "100") d2 [acctA] =
        (HttpResponse.redirect "dashboard" [("Insufficient funds", "error")], [acctA])
      ↔ acctA.balance < 100) :=
  ⟨rfl, by norm_num, by decide,
    withdraw_insufficient_iff (parseConst 100) 1 "100" 100 d2 [acctA] acctA
      rfl (by norm_num) (by decide)⟩

theorem nonpositive_or_unparseable_rejected_witness :
    (∀ a : ℚ, (some "0").bind (parseConst 0) = some a → a ≤ 0) ∧
    (isValidationError (deposit (parseConst 0) (some 1) (some "0") d1 [acctA]).1 ∧
     (deposit (parseConst 0) (some 1) (some "0") d1 [acctA]).2 = [acctA] ∧
     isValidationError (withdraw (parseConst 0) (some 1) (some "0") d1 [acctA]).1 ∧
     (withdraw (parseConst 0) (some 1) (some "0") d1 [acctA]).2 = [acctA]) := by
  have hyp : ∀ a : ℚ, (some "0").bind (parseConst 0) = some a → a ≤ 0 := by
    intro a h
    injection h with h1
    rw [← h1]
  exact ⟨hyp, nonpositive_or_unparseable_rejected (parseConst 0) 1 (some "0") d1 [acctA] hyp⟩

theorem reachable_balance_eq_ledger_witness :
    Reachable ((deposit (parseConst 100) (some 1) (some "100") d1
        ((register hashF 1 (some "Alice") (some "Smith") (some "alice@example.com")
          (some "pw123") []).2)).2) ∧
    (∀ a ∈ (deposit (parseConst 100) (some 1) (some "100") d1
        ((register hashF 1 (some "Alice") (some "Smith") (some "alice@example.com")
          (some "pw123") []).2)).2, a.balance = txSum a.transactions) :=
  have hr : Reachable ((deposit (parseConst 100) (some 1) (some "100") d1
      ((register hashF 1 (some "Alice") (some "Smith") (some "alice@example.com")
        (some "pw123") []).2)).2) :=
    Reachable.dep _ _ _ _ (Reachable.reg _ _ _ _ _ _ Reachable.init)
  ⟨hr, reachable_balance_eq_ledger _ hr⟩

theorem reachable_balance_nonneg_witness :
    Reachable ((withdraw (parseConst 200) (some 1) (some "200") d2
        ((register hashF 1 (some "Bob") (some "Stone") (some "bob@example.com")
          (some "pw456") []).2)).2) ∧
    (∀ a ∈ (withdraw (parseConst 200) (some 1) (some "200") d2
        ((register hashF 1 (some "Bob") (some "Stone") (some "bob@example.com")
          (some "pw456") []).2)).2, 0 ≤ a.balance) :=
  have hr : Reachable ((withdraw (parseConst 200) (some 1) (some "200") d2
      ((register hashF 1 (some "Bob") (some "Stone") (some "bob@example.com")
        (some "pw456") []).2)).2) :=
    Reachable.wdr _ _ _ _ (Reachable.reg _ _ _ _ _ _ Reachable.init)
  ⟨hr, reachable_balance_nonneg _ hr⟩

theorem get_transactions_month_grouping_witness :
    findOne [acctA] 1 = some acctA ∧
    (get_transactions (some 1) [acctA] =
        HttpResponse.jsonOk (groupByMonth acctA.transactions) ∧
      groupByMonth acctA.transactions = groupedBySpec acctA.transactions ∧
      (monthKeys acctA.transactions).Nodup ∧
      (∀ t ∈ acctA.transactions, monthKey t.date ∈ monthKeys acctA.transactions) ∧
      (acctA.transactions = [] → groupByMonth acctA.transactions = [])) :=
  ⟨by decide, get_transactions_month_grouping 1 [acctA] acctA (by decide)⟩

theorem login_failures_indistinguishable_witness :
    loginFails (fun _ _ => false) [acctA] "nobody@example.com" "pw123" ∧
    loginFails (fun _ _ => false) [acctA] "alice@example.com" "wrongpw" ∧
    (login (fun _ _ => false) "nobody@example.com" "pw123" none [acctA] =
        (HttpResponse.redirect "login" [("Invalid email or password", "error")], none) ∧
      login (fun _ _ => false) "nobody@example.com" "pw123" none [acctA] =
        login (fun _ _ => false) "alice@example.com" "wrongpw" none [acctA]) :=
  have h1 : loginFails (fun _ _ => false) [acctA] "nobody@example.com" "pw123" :=
    Or.inl (by decide)
  have h2 : loginFails (fun _ _ => false) [acctA] "alice@example.com" "wrongpw" :=
    Or.inr ⟨acctA, by decide, rfl⟩
  ⟨h1, h2, login_failures_indistinguishable (fun _ _ => false) [acctA]
    "nobody@example.com" "pw123" "alice@example.com" "wrongpw" none h1 h2⟩
